import Mathlib

/-!
Verification of the `cc-license` crate: parsing Creative Commons license
URLs into a `License` value (rights + version) and rendering canonical
license text.

The embedding follows the Rust sources:
* `src/error.rs`   → `ParseError`
* `src/rights.rs`  → `Rights` with `fullText` (full_text), `display`
  (the `fmt::Display` impl) and `fromStr` (the `FromStr` impl)
* `src/version.rs` → `Version` with `display` and `fromStr`
* `src/nomenclature.rs` → `Nomenclature` with `display`
* `src/lib.rs`     → `License`, `License.check`, `License.fromUrl`,
  `License.short`, `License.toText` (the `ToString` impl) and the
  `From<&License> for Nomenclature` impl (`Nomenclature.ofLicense`).

The regular expression
`^https?://(www\.)?creativecommons\.org/(licenses|publicdomain)/(?P<rights>[^/]+)/(?P<version>[^/]+)/?$`
is embedded as the executable matcher `ccMatch`.  Each alternation of the
regex is modelled with `Option.orElse` trying the alternatives in regex
order.  Committed (first-match) choice coincides with backtracking here
because no input can satisfy two alternatives of the same group: a string
beginning `https://` does not begin `http://` (the fifth character is `s`
versus `:`), a string beginning `www.` does not begin `creativecommons`,
and `licenses/` and `publicdomain/` differ in their first character.  The
`[^/]+` capture groups are maximal runs of non-`/` characters, which is
exactly `readToken`, with no backtracking possible since the following
regex characters are `/` characters that the class excludes.
-/

namespace CcLicense

/-- Errors that can occur during parsing (src/error.rs). -/
inductive ParseError
  | InvalidUrl
  | InvalidRights
  | InvalidVersion
  | InvalidPublicDomainVersion
  deriving DecidableEq, Repr

/-- The seven rights variants (src/rights.rs). -/
inductive Rights
  | By
  | BySa
  | ByNd
  | ByNc
  | ByNcSa
  | ByNcNd
  | Zero
  deriving DecidableEq, Repr, Fintype

/-- `Rights::full_text` (src/rights.rs). -/
def Rights.fullText : Rights → String
  | Rights.By => "Attribution"
  | Rights.BySa => "Attribution-ShareAlike"
  | Rights.ByNd => "Attribution-NoDerivatives"
  | Rights.ByNc => "Attribution-NonCommercial"
  | Rights.ByNcSa => "Attribution-NonCommercial-ShareAlike"
  | Rights.ByNcNd => "Attribution-NonCommercial-NoDerivatives"
  | Rights.Zero => "CC0"

/-- The `fmt::Display` impl for `Rights` (src/rights.rs). -/
def Rights.display : Rights → String
  | Rights.By => "CC BY"
  | Rights.BySa => "CC BY-SA"
  | Rights.ByNd => "CC BY-ND"
  | Rights.ByNc => "CC BY-NC"
  | Rights.ByNcSa => "CC BY-NC-SA"
  | Rights.ByNcNd => "CC BY-NC-ND"
  | Rights.Zero => "CC0"

/-- The `FromStr` impl for `Rights` (src/rights.rs): an exact,
case-sensitive match on the token string. -/
def Rights.fromStr (s : String) : Except ParseError Rights :=
  if s = "by" then Except.ok Rights.By
  else if s = "by-sa" then Except.ok Rights.BySa
  else if s = "by-nd" then Except.ok Rights.ByNd
  else if s = "by-nc" then Except.ok Rights.ByNc
  else if s = "by-nc-sa" then Except.ok Rights.ByNcSa
  else if s = "by-nc-nd" then Except.ok Rights.ByNcNd
  else if s = "zero" then Except.ok Rights.Zero
  else Except.error ParseError.InvalidRights

/-- The five version variants (src/version.rs). -/
inductive Version
  | One
  | Two
  | TwoFive
  | Three
  | Four
  deriving DecidableEq, Repr, Fintype

/-- The `fmt::Display` impl for `Version` (src/version.rs). -/
def Version.display : Version → String
  | Version.One => "1.0"
  | Version.Two => "2.0"
  | Version.TwoFive => "2.5"
  | Version.Three => "3.0"
  | Version.Four => "4.0"

/-- The `FromStr` impl for `Version` (src/version.rs): an exact,
case-sensitive match on the token string. -/
def Version.fromStr (s : String) : Except ParseError Version :=
  if s = "1.0" then Except.ok Version.One
  else if s = "2.0" then Except.ok Version.Two
  else if s = "2.5" then Except.ok Version.TwoFive
  else if s = "3.0" then Except.ok Version.Three
  else if s = "4.0" then Except.ok Version.Four
  else Except.error ParseError.InvalidVersion

/-- The four nomenclature variants (src/nomenclature.rs). -/
inductive Nomenclature
  | Generic
  | Unported
  | International
  | Universal
  deriving DecidableEq, Repr

/-- The `fmt::Display` impl for `Nomenclature` (src/nomenclature.rs). -/
def Nomenclature.display : Nomenclature → String
  | Nomenclature.Generic => "Generic"
  | Nomenclature.Unported => "Unported"
  | Nomenclature.International => "International"
  | Nomenclature.Universal => "Universal"

/-- A parsed Creative Commons license (src/lib.rs). -/
structure License where
  rights : Rights
  version : Version
  deriving DecidableEq, Repr, Fintype

/-- `License::check` (src/lib.rs): CC0 only exists at version 1.0. -/
def License.check (l : License) : Except ParseError Unit :=
  if l.rights = Rights.Zero ∧ l.version ≠ Version.One then
    Except.error ParseError.InvalidPublicDomainVersion
  else
    Except.ok ()

/-- The `From<&License> for Nomenclature` impl (src/lib.rs). -/
def Nomenclature.ofLicense (l : License) : Nomenclature :=
  match l.rights with
  | Rights.Zero => Nomenclature.Universal
  | _ =>
    match l.version with
    | Version.One => Nomenclature.Generic
    | Version.Two => Nomenclature.Generic
    | Version.TwoFive => Nomenclature.Generic
    | Version.Three => Nomenclature.Unported
    | Version.Four => Nomenclature.International

/-- `License::short` (src/lib.rs): `format!("{} {}", rights, version)`. -/
def License.short (l : License) : String :=
  l.rights.display ++ " " ++ l.version.display

/-- The `ToString` impl for `License` (src/lib.rs):
`format!("Creative Commons {} {} {} license ({}).", ...)`. -/
def License.toText (l : License) : String :=
  "Creative Commons " ++ l.rights.fullText ++ " " ++ l.version.display ++ " "
    ++ (Nomenclature.ofLicense l).display ++ " license (" ++ l.short ++ ")."

/-- Match a literal against the front of `s`; on success return the rest.
This is the building block for the anchored regex `CC_REGEX`. -/
def dropLit : List Char → List Char → Option (List Char)
  | [], s => some s
  | _ :: _, [] => none
  | c :: p, d :: s => if c = d then dropLit p s else none

/-- Read a maximal run of non-`/` characters (the `[^/]+` character class
of `CC_REGEX`, before the nonemptiness requirement): returns the run and
the remaining characters. -/
def readToken : List Char → List Char × List Char
  | [] => ([], [])
  | c :: s =>
    if c = '/' then ([], c :: s)
    else
      let p := readToken s
      (c :: p.1, p.2)

/-- The `(?P<rights>[^/]+)/(?P<version>[^/]+)/?$` part of `CC_REGEX`:
two nonempty `/`-free tokens separated by `/`, an optional trailing `/`,
and the anchored end of input. -/
def ccTokens (s : List Char) : Option (List Char × List Char) :=
  let p1 := readToken s
  if p1.1 = [] then none
  else
    (dropLit ['/'] p1.2).bind fun rest =>
      let p2 := readToken rest
      if p2.1 = [] then none
      else if p2.2 = [] ∨ p2.2 = ['/'] then some (p1.1, p2.1)
      else none

/-- The `^https?://(www\.)?creativecommons\.org/(licenses|publicdomain)/`
part of `CC_REGEX`.  Each `Option.orElse` is one alternation, tried in
regex order; see the module docstring for why committed choice agrees
with backtracking here. -/
def ccStripHead (s : List Char) : Option (List Char) :=
  ((dropLit "https://".data s).orElse (fun _ => dropLit "http://".data s)).bind fun s1 =>
    ((dropLit "www.creativecommons.org/".data s1).orElse
        (fun _ => dropLit "creativecommons.org/".data s1)).bind fun s2 =>
      (dropLit "licenses/".data s2).orElse (fun _ => dropLit "publicdomain/".data s2)

/-- The full anchored match of `CC_REGEX` against a string, returning the
`rights` and `version` captures on success (src/lib.rs, `CC_REGEX` and
the `captures` calls in `License::from_url`). -/
def ccMatch (s : String) : Option (String × String) :=
  (ccStripHead s.data).bind fun tail =>
    (ccTokens tail).map fun p => (String.mk p.1, String.mk p.2)

/-- `License::from_url` (src/lib.rs): regex match, rights decode, version
decode, CC0 cross-field check, in that order, failing fast. -/
def License.fromUrl (url : String) : Except ParseError License :=
  match ccMatch url with
  | none => Except.error ParseError.InvalidUrl
  | some (r, v) =>
    (Rights.fromStr r).bind fun rights =>
      (Version.fromStr v).bind fun version =>
        let license : License := License.mk rights version
        (license.check).bind fun _ => Except.ok license

/-- The URL token decoding to each rights variant: the inverse of the
`Rights::from_str` table (src/rights.rs). -/
def Rights.token : Rights → String
  | Rights.By => "by"
  | Rights.BySa => "by-sa"
  | Rights.ByNd => "by-nd"
  | Rights.ByNc => "by-nc"
  | Rights.ByNcSa => "by-nc-sa"
  | Rights.ByNcNd => "by-nc-nd"
  | Rights.Zero => "zero"

/-- The URL rebuilt from a parsed license, as the spec's round-trip
property describes it: `https://creativecommons.org/licenses/<rights
token>/<version text>/`, or `https://creativecommons.org/publicdomain/zero/1.0/`
when rights is CC0. -/
def License.reconstructUrl (l : License) : String :=
  if l.rights = Rights.Zero then "https://creativecommons.org/publicdomain/zero/1.0/"
  else "https://creativecommons.org/licenses/" ++ l.rights.token ++ "/"
        ++ l.version.display ++ "/"

instance {ε α : Type} [DecidableEq ε] [DecidableEq α] : DecidableEq (Except ε α) := fun a b =>
  match a, b with
  | Except.ok x, Except.ok y =>
    if h : x = y then Decidable.isTrue (congrArg Except.ok h)
    else Decidable.isFalse (fun hh => h (Except.ok.inj hh))
  | Except.error e, Except.error f =>
    if h : e = f then Decidable.isTrue (congrArg Except.error h)
    else Decidable.isFalse (fun hh => h (Except.error.inj hh))
  | Except.ok _, Except.error _ => Decidable.isFalse (fun hh => Except.noConfusion hh)
  | Except.error _, Except.ok _ => Decidable.isFalse (fun hh => Except.noConfusion hh)

/-- The shape of an accepted URL, written out from the spec's reading of
`CC_REGEX`: scheme `http` or `https`, optional `www.`, host
`creativecommons.org`, first path segment `licenses` or `publicdomain`,
then a nonempty `/`-free rights token, a nonempty `/`-free version token
and an optional trailing slash, with nothing after. -/
def UrlShape (s : String) : Prop :=
  ∃ scheme www kind rightsTok verTok slash : String,
    (scheme = "http" ∨ scheme = "https") ∧
    (www = "" ∨ www = "www.") ∧
    (kind = "licenses" ∨ kind = "publicdomain") ∧
    rightsTok.data ≠ [] ∧ (∀ c ∈ rightsTok.data, c ≠ '/') ∧
    verTok.data ≠ [] ∧ (∀ c ∈ verTok.data, c ≠ '/') ∧
    (slash = "" ∨ slash = "/") ∧
    s = scheme ++ "://" ++ www ++ "creativecommons.org/" ++ kind ++ "/"
          ++ rightsTok ++ "/" ++ verTok ++ slash

theorem dropLit_eq_some {p : List Char} :
    ∀ {s r : List Char}, dropLit p s = some r → s = p ++ r := by
  induction p with
  | nil =>
    intro s r h
    simp only [dropLit, Option.some.injEq] at h
    simp [h]
  | cons c p ih =>
    intro s r h
    match s with
    | [] => simp [dropLit] at h
    | d :: s =>
      simp only [dropLit] at h
      by_cases hc : c = d
      · rw [if_pos hc] at h
        subst hc
        simp [ih h]
      · rw [if_neg hc] at h
        exact absurd h (by simp)

theorem readToken_spec (s : List Char) :
    s = (readToken s).1 ++ (readToken s).2
    ∧ (∀ c ∈ (readToken s).1, c ≠ '/')
    ∧ ((readToken s).2 = [] ∨ ∃ r, (readToken s).2 = '/' :: r) := by
  induction s with
  | nil => simp [readToken]
  | cons c s ih =>
    by_cases hc : c = '/'
    · subst hc
      simp [readToken]
    · simp only [readToken, if_neg hc]
      refine ⟨?_, ?_, ih.2.2⟩
      · simpa using ih.1
      · intro d hd
        rw [List.mem_cons] at hd
        rcases hd with hd | hd
        · simpa [hd] using hc
        · exact ih.2.1 d hd

theorem orElse_eq_some {α : Type} {a : Option α} {f : Unit → Option α} {x : α}
    (h : a.orElse f = some x) : a = some x ∨ f () = some x := by
  cases a with
  | none => right; simpa [Option.orElse] using h
  | some y => left; simpa [Option.orElse] using h

theorem ccTokens_eq_some {s r v : List Char} (h : ccTokens s = some (r, v)) :
    r ≠ [] ∧ v ≠ [] ∧ (∀ c ∈ r, c ≠ '/') ∧ (∀ c ∈ v, c ≠ '/') ∧
      (s = r ++ '/' :: v ∨ s = r ++ '/' :: v ++ ['/']) := by
  have hs := readToken_spec s
  simp only [ccTokens] at h
  split at h
  · exact absurd h (by simp)
  · rename_i h1
    rcases Option.bind_eq_some.mp h with ⟨rest, hdrop, h2⟩
    have hmid : (readToken s).2 = '/' :: rest := dropLit_eq_some hdrop
    have hrest := readToken_spec rest
    split at h2
    · exact absurd h2 (by simp)
    · rename_i h3
      split at h2
      · rename_i h4
        have hrv : r = (readToken s).1 ∧ v = (readToken rest).1 := by
          have := Option.some.inj h2
          exact ⟨congrArg Prod.fst this.symm, congrArg Prod.snd this.symm⟩
        refine ⟨hrv.1 ▸ h1, hrv.2 ▸ h3, hrv.1 ▸ hs.2.1, hrv.2 ▸ hrest.2.1, ?_⟩
        rcases h4 with h4 | h4
        · left
          rw [hs.1, hmid, hrest.1, h4, hrv.1, hrv.2]
          simp
        · right
          rw [hs.1, hmid, hrest.1, h4, hrv.1, hrv.2]
          simp
      · exact absurd h2 (by simp)

theorem strip_step {A B C D s tail : List Char}
    (h1 : s = A ++ (B ++ (C ++ tail))) (h2 : (A ++ B) ++ C = D) :
    s = D ++ tail := by
  subst h2
  simp [h1, List.append_assoc]

theorem ccStripHead_eq_some {s tail : List Char} (h : ccStripHead s = some tail) :
    ∃ scheme www kind : String,
      (scheme = "http" ∨ scheme = "https") ∧
      (www = "" ∨ www = "www.") ∧
      (kind = "licenses" ∨ kind = "publicdomain") ∧
      s = (scheme ++ "://" ++ www ++ "creativecommons.org/" ++ kind ++ "/").data ++ tail := by
  simp only [ccStripHead] at h
  rcases Option.bind_eq_some.mp h with ⟨s1, h1, h2⟩
  rcases Option.bind_eq_some.mp h2 with ⟨s2, h3, h4⟩
  have e1 := orElse_eq_some h1
  have e2 := orElse_eq_some h3
  have e3 := orElse_eq_some h4
  rcases e1 with e1 | e1 <;> rcases e2 with e2 | e2 <;> rcases e3 with e3 | e3 <;>
      have hs1 := dropLit_eq_some e1 <;>
      rw [dropLit_eq_some e2, dropLit_eq_some e3] at hs1
  · exact ⟨"https", "www.", "licenses", Or.inr rfl, Or.inr rfl, Or.inl rfl,
      strip_step hs1 (by decide)⟩
  · exact ⟨"https", "www.", "publicdomain", Or.inr rfl, Or.inr rfl, Or.inr rfl,
      strip_step hs1 (by decide)⟩
  · exact ⟨"https", "", "licenses", Or.inr rfl, Or.inl rfl, Or.inl rfl,
      strip_step hs1 (by decide)⟩
  · exact ⟨"https", "", "publicdomain", Or.inr rfl, Or.inl rfl, Or.inr rfl,
      strip_step hs1 (by decide)⟩
  · exact ⟨"http", "www.", "licenses", Or.inl rfl, Or.inr rfl, Or.inl rfl,
      strip_step hs1 (by decide)⟩
  · exact ⟨"http", "www.", "publicdomain", Or.inl rfl, Or.inr rfl, Or.inr rfl,
      strip_step hs1 (by decide)⟩
  · exact ⟨"http", "", "licenses", Or.inl rfl, Or.inl rfl, Or.inl rfl,
      strip_step hs1 (by decide)⟩
  · exact ⟨"http", "", "publicdomain", Or.inl rfl, Or.inl rfl, Or.inr rfl,
      strip_step hs1 (by decide)⟩

theorem urlShape_of_decomp {s : String} {r v slashl : List Char}
    (scheme www kind : String)
    (hscheme : scheme = "http" ∨ scheme = "https")
    (hwww : www = "" ∨ www = "www.")
    (hkind : kind = "licenses" ∨ kind = "publicdomain")
    (hr : r ≠ []) (hrs : ∀ c ∈ r, c ≠ '/')
    (hv : v ≠ []) (hvs : ∀ c ∈ v, c ≠ '/')
    (hslash : slashl = [] ∨ slashl = ['/'])
    (hs : s.data = (scheme ++ "://" ++ www ++ "creativecommons.org/" ++ kind ++ "/").data
        ++ (r ++ '/' :: v ++ slashl)) :
    UrlShape s := by
  have hd1 : "/".data = ['/'] := rfl
  rcases hslash with h5 | h5
  · subst h5
    refine ⟨scheme, www, kind, String.mk r, String.mk v, "",
      hscheme, hwww, hkind, hr, hrs, hv, hvs, Or.inl rfl, ?_⟩
    apply String.ext
    rw [hs]
    simp [String.data_append, hd1, List.append_assoc]
  · subst h5
    refine ⟨scheme, www, kind, String.mk r, String.mk v, "/",
      hscheme, hwww, hkind, hr, hrs, hv, hvs, Or.inr rfl, ?_⟩
    apply String.ext
    rw [hs]
    simp [String.data_append, hd1, List.append_assoc]

theorem ccMatch_eq_some_shape {s : String} {p : String × String}
    (h : ccMatch s = some p) : UrlShape s := by
  simp only [ccMatch] at h
  rcases Option.bind_eq_some.mp h with ⟨tail, h1, h2⟩
  rcases Option.map_eq_some'.mp h2 with ⟨⟨r, v⟩, h3, _⟩
  rcases ccStripHead_eq_some h1 with ⟨scheme, www, kind, hsch, hw, hk, hdecomp⟩
  rcases ccTokens_eq_some h3 with ⟨hr, hv, hrs, hvs, htail | htail⟩
  · exact urlShape_of_decomp scheme www kind hsch hw hk hr hrs hv hvs (Or.inl rfl)
      (by rw [hdecomp, htail]; simp)
  · exact urlShape_of_decomp scheme www kind hsch hw hk hr hrs hv hvs (Or.inr rfl)
      (by rw [hdecomp, htail])

theorem data_mk (l : List Char) : (String.mk l).data = l := rfl

theorem ccStripHead_append (scheme www kind : String) (tail : List Char)
    (hscheme : scheme = "http" ∨ scheme = "https")
    (hwww : www = "" ∨ www = "www.")
    (hkind : kind = "licenses" ∨ kind = "publicdomain") :
    ccStripHead ((scheme ++ "://" ++ www ++ "creativecommons.org/" ++ kind ++ "/").data ++ tail)
      = some tail := by
  rcases hscheme with rfl | rfl <;> rcases hwww with rfl | rfl <;>
    rcases hkind with rfl | rfl <;>
    simp [ccStripHead, dropLit, Option.orElse]

theorem readToken_no_slash : ∀ {l : List Char}, (∀ c ∈ l, c ≠ '/') → readToken l = (l, []) := by
  intro l
  induction l with
  | nil => intro _; rfl
  | cons c s ih =>
    intro h
    have hc : c ≠ '/' := h c (by simp)
    simp [readToken, hc, ih (fun d hd => h d (by simp [hd]))]

theorem readToken_append_slash {r : List Char} (w : List Char) (h : ∀ c ∈ r, c ≠ '/') :
    readToken (r ++ '/' :: w) = (r, '/' :: w) := by
  induction r with
  | nil => simp [readToken]
  | cons c s ih =>
    have hc : c ≠ '/' := h c (by simp)
    simp [readToken, hc, ih (fun d hd => h d (by simp [hd]))]

theorem ccTokens_append {r v : List Char} (hr : r ≠ []) (hrs : ∀ c ∈ r, c ≠ '/')
    (hv : v ≠ []) (hvs : ∀ c ∈ v, c ≠ '/') :
    ccTokens (r ++ '/' :: v) = some (r, v) := by
  simp [ccTokens, readToken_append_slash v hrs, hr, dropLit, readToken_no_slash hvs, hv]

theorem ccTokens_trailing_none {r v q : List Char} (hr : r ≠ []) (hrs : ∀ c ∈ r, c ≠ '/')
    (hv : v ≠ []) (hvs : ∀ c ∈ v, c ≠ '/') (hq : q ≠ []) :
    ccTokens (r ++ '/' :: (v ++ '/' :: q)) = none := by
  simp [ccTokens, readToken_append_slash _ hrs, hr, dropLit,
    readToken_append_slash _ hvs, hv, hq]

theorem version_fromStr_query_char {w : List Char} (hw : '?' ∈ w ∨ '#' ∈ w) :
    Version.fromStr (String.mk w) = Except.error ParseError.InvalidVersion := by
  have key : ∀ lit : String, '?' ∉ lit.data → '#' ∉ lit.data → String.mk w ≠ lit := by
    intro lit h1 h2 heq
    have hw' : w = lit.data := congrArg String.data heq
    subst hw'
    rcases hw with hw | hw
    · exact h1 hw
    · exact h2 hw
  simp [Version.fromStr, key "1.0" (by decide) (by decide), key "2.0" (by decide) (by decide),
    key "2.5" (by decide) (by decide), key "3.0" (by decide) (by decide),
    key "4.0" (by decide) (by decide)]

theorem fromUrl_ok_elim {url : String} {l : License}
    (h : License.fromUrl url = Except.ok l) :
    ∃ r v, ccMatch url = some (r, v) ∧ Rights.fromStr r = Except.ok l.rights
      ∧ Version.fromStr v = Except.ok l.version ∧ l.check = Except.ok () := by
  rcases hm : ccMatch url with _ | ⟨r, v⟩
  · simp [License.fromUrl, hm] at h
  · refine ⟨r, v, rfl, ?_⟩
    rcases hr : Rights.fromStr r with e | rr
    · simp [License.fromUrl, hm, hr, Except.bind] at h
    · rcases hv : Version.fromStr v with e | vv
      · simp [License.fromUrl, hm, hr, hv, Except.bind] at h
      · rcases hc : (License.mk rr vv).check with e | u
        · simp [License.fromUrl, hm, hr, hv, hc, Except.bind] at h
        · simp [License.fromUrl, hm, hr, hv, hc, Except.bind] at h
          subst h
          exact ⟨rfl, rfl, by cases u; exact hc⟩

/-- C1: every successfully parsed license renders its canonical text as
`"Creative Commons <full rights> <version> <nomenclature> license
(<short>)."` with the short form `"<rights abbreviation> <version>"`, and
the CC0 1.0 and BY-NC-SA 4.0 URLs render the documented strings. -/
theorem canonical_text :
    (∀ (url : String) (l : License), License.fromUrl url = Except.ok l →
      l.toText = "Creative Commons " ++ l.rights.fullText ++ " " ++ l.version.display ++ " "
          ++ (Nomenclature.ofLicense l).display ++ " license (" ++ l.short ++ ")."
        ∧ l.short = l.rights.display ++ " " ++ l.version.display)
    ∧ Except.map License.toText
        (License.fromUrl "https://creativecommons.org/publicdomain/zero/1.0/")
      = Except.ok "Creative Commons CC0 1.0 Universal license (CC0 1.0)."
    ∧ Except.map License.toText
        (License.fromUrl "https://creativecommons.org/licenses/by-nc-sa/4.0/")
      = Except.ok "Creative Commons Attribution-NonCommercial-ShareAlike 4.0 International license (CC BY-NC-SA 4.0)." :=
  ⟨fun _ _ _ => ⟨rfl, rfl⟩, by decide, by decide⟩

/-- C2: `from_url` succeeds only on strings of the anchored shape
`http(s)://[www.]creativecommons.org/(licenses|publicdomain)/<tok>/<tok>[/]`
with nonempty `/`-free tokens, any other string — in particular the
scheme-less `creativecommons.org/licenses/by/1.0/` — failing with
`InvalidUrl`. -/
theorem fromUrl_shape :
    (∀ (s : String) (l : License), License.fromUrl s = Except.ok l → UrlShape s)
    ∧ (∀ s : String, ¬ UrlShape s → License.fromUrl s = Except.error ParseError.InvalidUrl)
    ∧ License.fromUrl "creativecommons.org/licenses/by/1.0/"
        = Except.error ParseError.InvalidUrl := by
  refine ⟨?_, ?_, by decide⟩
  · intro s l h
    rcases hm : ccMatch s with _ | p
    · simp [License.fromUrl, hm] at h
    · exact ccMatch_eq_some_shape hm
  · intro s hns
    rcases hm : ccMatch s with _ | p
    · simp [License.fromUrl, hm]
    · exact absurd (ccMatch_eq_some_shape hm) hns

/-- C3: rights and version decoding are exact, byte-for-byte,
case-sensitive table lookups; every token outside the tables fails with
`InvalidRights` resp. `InvalidVersion` (including `"1"`, `"4.5"`,
`"5.0"`). -/
theorem rights_version_tables :
    (Rights.fromStr "by" = Except.ok Rights.By
      ∧ Rights.fromStr "by-sa" = Except.ok Rights.BySa
      ∧ Rights.fromStr "by-nd" = Except.ok Rights.ByNd
      ∧ Rights.fromStr "by-nc" = Except.ok Rights.ByNc
      ∧ Rights.fromStr "by-nc-sa" = Except.ok Rights.ByNcSa
      ∧ Rights.fromStr "by-nc-nd" = Except.ok Rights.ByNcNd
      ∧ Rights.fromStr "zero" = Except.ok Rights.Zero)
    ∧ (∀ s : String,
        s ∉ (["by", "by-sa", "by-nd", "by-nc", "by-nc-sa", "by-nc-nd", "zero"] : List String) →
        Rights.fromStr s = Except.error ParseError.InvalidRights)
    ∧ (Version.fromStr "1.0" = Except.ok Version.One
      ∧ Version.fromStr "2.0" = Except.ok Version.Two
      ∧ Version.fromStr "2.5" = Except.ok Version.TwoFive
      ∧ Version.fromStr "3.0" = Except.ok Version.Three
      ∧ Version.fromStr "4.0" = Except.ok Version.Four)
    ∧ (∀ s : String, s ∉ (["1.0", "2.0", "2.5", "3.0", "4.0"] : List String) →
        Version.fromStr s = Except.error ParseError.InvalidVersion)
    ∧ Version.fromStr "1" = Except.error ParseError.InvalidVersion
    ∧ Version.fromStr "4.5" = Except.error ParseError.InvalidVersion
    ∧ Version.fromStr "5.0" = Except.error ParseError.InvalidVersion := by
  refine ⟨by decide, ?_, by decide, ?_, by decide, by decide, by decide⟩
  · intro s hs
    simp only [List.mem_cons, List.not_mem_nil, or_false, not_or] at hs
    obtain ⟨h1, h2, h3, h4, h5, h6, h7⟩ := hs
    simp [Rights.fromStr, h1, h2, h3, h4, h5, h6, h7]
  · intro s hs
    simp only [List.mem_cons, List.not_mem_nil, or_false, not_or] at hs
    obtain ⟨h1, h2, h3, h4, h5⟩ := hs
    simp [Version.fromStr, h1, h2, h3, h4, h5]

/-- C4: every license produced by `from_url` satisfies the CC0 invariant
(rights `Zero` forces version 1.0), and the CC0-at-2.0 URL fails with
`InvalidPublicDomainVersion`. -/
theorem cc0_invariant :
    (∀ (url : String) (l : License), License.fromUrl url = Except.ok l →
      l.rights = Rights.Zero → l.version = Version.One)
    ∧ License.fromUrl "https://creativecommons.org/publicdomain/zero/2.0/"
        = Except.error ParseError.InvalidPublicDomainVersion := by
  refine ⟨?_, by decide⟩
  intro url l h hz
  rcases fromUrl_ok_elim h with ⟨r, v, _, _, _, hc⟩
  by_contra hv
  simp [License.check, hz, hv] at hc

/-- C5: the nomenclature derivation is total over the (rights, version)
pairs: CC0 always yields `Universal`; otherwise versions 1.0, 2.0 and 2.5
yield `Generic`, 3.0 yields `Unported` and 4.0 yields `International`,
and these cases are exhaustive. -/
theorem nomenclature_total : ∀ l : License,
    (l.rights = Rights.Zero ∨ l.version = Version.One ∨ l.version = Version.Two
      ∨ l.version = Version.TwoFive ∨ l.version = Version.Three ∨ l.version = Version.Four)
    ∧ (l.rights = Rights.Zero → Nomenclature.ofLicense l = Nomenclature.Universal)
    ∧ (l.rights ≠ Rights.Zero →
        ((l.version = Version.One ∨ l.version = Version.Two ∨ l.version = Version.TwoFive) →
          Nomenclature.ofLicense l = Nomenclature.Generic)
        ∧ (l.version = Version.Three → Nomenclature.ofLicense l = Nomenclature.Unported)
        ∧ (l.version = Version.Four → Nomenclature.ofLicense l = Nomenclature.International)) := by
  decide

/-- C6: `from_url` fails fast in stage order (URL shape, rights, version,
CC0 cross-check); with both tokens invalid the result is `InvalidRights`,
and only a fully checked `License` is ever returned. -/
theorem fail_fast_order :
    (∀ s : String, ccMatch s = none →
        License.fromUrl s = Except.error ParseError.InvalidUrl)
    ∧ (∀ (s r v : String), ccMatch s = some (r, v) →
        Rights.fromStr r = Except.error ParseError.InvalidRights →
        License.fromUrl s = Except.error ParseError.InvalidRights)
    ∧ (∀ (s r v : String) (rr : Rights), ccMatch s = some (r, v) →
        Rights.fromStr r = Except.ok rr →
        Version.fromStr v = Except.error ParseError.InvalidVersion →
        License.fromUrl s = Except.error ParseError.InvalidVersion)
    ∧ (∀ (s r v : String) (rr : Rights) (vv : Version), ccMatch s = some (r, v) →
        Rights.fromStr r = Except.ok rr → Version.fromStr v = Except.ok vv →
        (License.mk rr vv).check = Except.error ParseError.InvalidPublicDomainVersion →
        License.fromUrl s = Except.error ParseError.InvalidPublicDomainVersion)
    ∧ License.fromUrl "https://creativecommons.org/licenses/bad-token/9.9/"
        = Except.error ParseError.InvalidRights := by
  refine ⟨?_, ?_, ?_, ?_, by decide⟩
  · intro s hm
    simp [License.fromUrl, hm]
  · intro s r v hm hr
    simp [License.fromUrl, hm, hr, Except.bind]
  · intro s r v rr hm hr hv
    simp [License.fromUrl, hm, hr, hv, Except.bind]
  · intro s r v rr vv hm hr hv hc
    simp [License.fromUrl, hm, hr, hv, hc, Except.bind]

/-- C7: round-trip — every license obtained from `from_url` is parsed
back unchanged from its reconstructed URL. -/
theorem fromUrl_roundtrip (url : String) (l : License)
    (h : License.fromUrl url = Except.ok l) :
    License.fromUrl l.reconstructUrl = Except.ok l := by
  have hkey : ∀ m : License, m.check = Except.ok () →
      License.fromUrl m.reconstructUrl = Except.ok m := by decide
  rcases fromUrl_ok_elim h with ⟨r, v, _, _, _, hc⟩
  exact hkey l hc

theorem fromUrl_roundtrip_witness :
    License.fromUrl "https://creativecommons.org/licenses/by-sa/3.0/"
        = Except.ok (License.mk Rights.BySa Version.Three)
    ∧ License.fromUrl (License.mk Rights.BySa Version.Three).reconstructUrl
        = Except.ok (License.mk Rights.BySa Version.Three) :=
  ⟨by decide, fromUrl_roundtrip "https://creativecommons.org/licenses/by-sa/3.0/"
      (License.mk Rights.BySa Version.Three) (by decide)⟩

/-- C8 (counterexample): a fragment attached directly to the version
token still matches the URL shape — the token class excludes only `/` —
so `from_url` fails with `InvalidVersion`, not `InvalidUrl` as claimed. -/
theorem query_fragment_counterexample :
    License.fromUrl "https://creativecommons.org/licenses/by/4.0#frag"
        = Except.error ParseError.InvalidVersion
    ∧ ParseError.InvalidVersion ≠ ParseError.InvalidUrl := by
  decide

/-- C8 (amended): for every accepted URL prefix and nonempty `/`-free
rights and version tokens, a query string or fragment (leading `?` or
`#`) placed after a slash following the version token makes `from_url`
fail with `InvalidUrl`; a query or fragment glued directly to the
version token still matches the URL shape (the token class excludes
only `/`) and, when the rights token is valid, fails with
`InvalidVersion` instead; the three example URLs fail accordingly. -/
theorem query_fragment_amended :
    (∀ (scheme www kind : String) (r v qs : List Char) (qc : Char),
      (scheme = "http" ∨ scheme = "https") →
      (www = "" ∨ www = "www.") →
      (kind = "licenses" ∨ kind = "publicdomain") →
      r ≠ [] → (∀ c ∈ r, c ≠ '/') →
      v ≠ [] → (∀ c ∈ v, c ≠ '/') →
      (qc = '?' ∨ qc = '#') →
      License.fromUrl (scheme ++ "://" ++ www ++ "creativecommons.org/" ++ kind ++ "/"
          ++ String.mk r ++ "/" ++ String.mk v ++ "/" ++ String.mk (qc :: qs))
        = Except.error ParseError.InvalidUrl)
    ∧ (∀ (scheme www kind : String) (r t : List Char) (rr : Rights),
      (scheme = "http" ∨ scheme = "https") →
      (www = "" ∨ www = "www.") →
      (kind = "licenses" ∨ kind = "publicdomain") →
      r ≠ [] → (∀ c ∈ r, c ≠ '/') →
      t ≠ [] → (∀ c ∈ t, c ≠ '/') →
      ('?' ∈ t ∨ '#' ∈ t) →
      Rights.fromStr (String.mk r) = Except.ok rr →
      License.fromUrl (scheme ++ "://" ++ www ++ "creativecommons.org/" ++ kind ++ "/"
          ++ String.mk r ++ "/" ++ String.mk t)
        = Except.error ParseError.InvalidVersion)
    ∧ License.fromUrl "https://creativecommons.org/licenses/by/4.0/?ref=x"
        = Except.error ParseError.InvalidUrl
    ∧ License.fromUrl "https://creativecommons.org/licenses/by/4.0#frag"
        = Except.error ParseError.InvalidVersion
    ∧ License.fromUrl "https://creativecommons.org/licenses/by/4.0?ref=x"
        = Except.error ParseError.InvalidVersion := by
  refine ⟨?_, ?_, by decide, by decide, by decide⟩
  · intro scheme www kind r v qs qc hsch hw hk hr hrs hv hvs hqc
    have hdata : (scheme ++ "://" ++ www ++ "creativecommons.org/" ++ kind ++ "/"
        ++ String.mk r ++ "/" ++ String.mk v ++ "/" ++ String.mk (qc :: qs)).data
        = (scheme ++ "://" ++ www ++ "creativecommons.org/" ++ kind ++ "/").data
          ++ (r ++ '/' :: (v ++ '/' :: (qc :: qs))) := by
      simp [String.data_append, data_mk, List.append_assoc]
    have hm : ccMatch (scheme ++ "://" ++ www ++ "creativecommons.org/" ++ kind ++ "/"
        ++ String.mk r ++ "/" ++ String.mk v ++ "/" ++ String.mk (qc :: qs)) = none := by
      simp only [ccMatch]
      rw [hdata, ccStripHead_append scheme www kind _ hsch hw hk]
      have htok : ccTokens (r ++ '/' :: (v ++ '/' :: (qc :: qs))) = none :=
        ccTokens_trailing_none hr hrs hv hvs (List.cons_ne_nil qc qs)
      simp [htok]
    simp [License.fromUrl, hm]
  · intro scheme www kind r t rr hsch hw hk hr hrs ht hts hq hrr
    have hdata : (scheme ++ "://" ++ www ++ "creativecommons.org/" ++ kind ++ "/"
        ++ String.mk r ++ "/" ++ String.mk t).data
        = (scheme ++ "://" ++ www ++ "creativecommons.org/" ++ kind ++ "/").data
          ++ (r ++ '/' :: t) := by
      simp [String.data_append, data_mk, List.append_assoc]
    have hm : ccMatch (scheme ++ "://" ++ www ++ "creativecommons.org/" ++ kind ++ "/"
        ++ String.mk r ++ "/" ++ String.mk t) = some (String.mk r, String.mk t) := by
      simp only [ccMatch]
      rw [hdata, ccStripHead_append scheme www kind _ hsch hw hk]
      simp [ccTokens_append hr hrs ht hts]
    simp [License.fromUrl, hm, hrr, version_fromStr_query_char hq, Except.bind]

/-- C9: `from_url` is a pure function of its input string — equal inputs
give equal results. -/
theorem fromUrl_deterministic (s t : String) (h : s = t) :
    License.fromUrl s = License.fromUrl t :=
  congrArg License.fromUrl h

theorem fromUrl_deterministic_witness :
    "https://creativecommons.org/licenses/by/4.0/"
        = "https://creativecommons.org/licenses/by/4.0/"
    ∧ License.fromUrl "https://creativecommons.org/licenses/by/4.0/"
        = License.fromUrl "https://creativecommons.org/licenses/by/4.0/" :=
  ⟨rfl, fromUrl_deterministic "https://creativecommons.org/licenses/by/4.0/"
    "https://creativecommons.org/licenses/by/4.0/" rfl⟩

/-- C10: the `licenses` / `publicdomain` path segment is not correlated
with the rights token — `publicdomain/by/4.0/` and `licenses/zero/1.0/`
both parse, for every rights/version token pair the two path kinds give
identical results, and for every pair satisfying the CC0 invariant both
path kinds produce the same successful parse. -/
theorem pathkind_uncorrelated :
    License.fromUrl "https://creativecommons.org/publicdomain/by/4.0/"
        = Except.ok (License.mk Rights.By Version.Four)
    ∧ License.fromUrl "https://creativecommons.org/licenses/zero/1.0/"
        = Except.ok (License.mk Rights.Zero Version.One)
    ∧ (∀ (r : Rights) (v : Version),
        License.fromUrl
            ("https://creativecommons.org/licenses/" ++ r.token ++ "/" ++ v.display ++ "/")
          = License.fromUrl
            ("https://creativecommons.org/publicdomain/" ++ r.token ++ "/" ++ v.display ++ "/"))
    ∧ (∀ (r : Rights) (v : Version), (License.mk r v).check = Except.ok () →
        License.fromUrl
            ("https://creativecommons.org/licenses/" ++ r.token ++ "/" ++ v.display ++ "/")
          = Except.ok (License.mk r v)
        ∧ License.fromUrl
            ("https://creativecommons.org/publicdomain/" ++ r.token ++ "/" ++ v.display ++ "/")
          = Except.ok (License.mk r v)) := by
  decide

end CcLicense
